import Mathlib

/-!
Verification of the revenue-patterns analysis pipeline.

The pipeline lives in `pages/page_1.py` (normalisation, anchoring,
horizon aggregation), `pages/page_2.py` and `pages/page_5.py`
(Spearman correlation, threshold scan, uplift factor table).

Embedding conventions:
* timestamps are rational numbers of seconds since the epoch
  (`convert_timestamps` already yields absolute times; parsing itself is
  not under consideration here);
* the `is_activation` column is one rational column covering both source
  conventions: boolean flags are the values `0`/`1` (pandas booleans act
  as such a 0/1 mask), an explicit anchor column holds anchor timestamps;
* a pandas `NaN`/`NaT` cell is `Option.none`: the left merge in
  `prepare_plots` leaves `NaN` for a user absent from a horizon's
  group-by, and a missing first touchpoint gives `NaT` offsets;
* floating point numbers are embedded as exact rationals, the Pearson
  step of the Spearman matrix (which divides by a square root) as exact
  reals;
* the two failure modes of `assign_factor` (an unbound local `factor`
  when the maximum horizon matches no branch, and a `TypeError` from
  comparing `None < 0.4`) are the two constructors of `AssignError`.
-/

namespace RevenuePatterns

/-- One raw input row: `user_id`, `timestamp` (seconds), the
`is_activation` column (flag 0/1 or anchor timestamp) and the optional
monetary `value` (`none` models a missing cell). -/
structure RawRow where
  user : ℕ
  t : ℚ
  act : ℚ
  value : Option ℚ
  deriving Repr, DecidableEq

/-- One row after `preprocess_data`: the user id, the
`hours_since_first_touchpoint` offset (`none` when the user has no
resolvable anchor, pandas `NaT`) and the zero-filled value. -/
structure ProcRow where
  user : ℕ
  hours : Option ℚ
  value : ℚ
  deriving Repr, DecidableEq

/-- The configured horizon list of `preprocess_data` (page_1.py line 77). -/
def daysList : List ℕ := [1, 3, 7, 14, 30, 60, 90, 180]

/-- Python `max(days_list)` (page_2.py line 89 / page_5.py line 129). -/
def maxHorizon (l : List ℕ) : ℕ := l.foldr max 0

/-- The branch test of `preprocess_data` (page_1.py line 52): the column
is boolean-like when every entry is 0 or 1 (`is_bool_dtype(...) or
df["is_activation"].isin([0, 1]).all()`). -/
def isFlagConvention (df : List RawRow) : Bool :=
  df.all (fun r => r.act == 0 || r.act == 1)

/-- The activation-flag anchor (page_1.py lines 53-60):
`df.loc[df.is_activation].groupby("user_id")["timestamp"].min()`, read
back through a left merge, so a user with no flagged row gets `none`. -/
def firstTouchpoint (df : List RawRow) (u : ℕ) : Option ℚ :=
  ((df.filter (fun r => r.act == 1 && r.user == u)).map (fun r => r.t)).min?

/-- `preprocess_data` (page_1.py lines 41-82) restricted to the columns
the downstream pages read.  On the flag convention each row's offset is
measured from the user's minimal flagged timestamp (`none`, i.e. `NaT`,
when there is none); on the explicit-anchor convention each row's offset
is measured from that row's own `is_activation` value, with no
cross-row consistency check.  `value` is zero-filled (line 79). -/
def preprocessData (df : List RawRow) : List ProcRow :=
  if isFlagConvention df then
    df.map (fun r =>
      { user := r.user
        hours := match firstTouchpoint df r.user with
          | some a => some ((r.t - a) / 3600)
          | none => none
        value := r.value.getD 0 })
  else
    df.map (fun r =>
      { user := r.user
        hours := some ((r.t - r.act) / 3600)
        value := r.value.getD 0 })

/-- The row filter of `prepare_plots` (page_1.py line 96):
`df["hours_since_first_touchpoint"] <= 24 * day`.  A `NaN` offset
compares false in pandas, hence `none ↦ false`. -/
def qualifies (day : ℕ) (r : ProcRow) : Bool :=
  match r.hours with
  | some h => h ≤ 24 * (day : ℚ)
  | none => false

/-- One cell `D{day}` of the aggregate table (page_1.py lines 96-99):
filter to the horizon window, group by user, sum `value`, and left-merge
against the full user list — a user absent from the group-by keeps a
`NaN` cell, i.e. `none`. -/
def aggCell (rows : List ProcRow) (u : ℕ) (day : ℕ) : Option ℚ :=
  let sub := rows.filter (qualifies day)
  let grp := sub.filter (fun r => r.user == u)
  if grp.isEmpty then none else some ((grp.map (fun r => r.value)).sum)

/-- Helper for `uniqueUsers`: keep the first occurrence of every user id,
skipping ids already seen. -/
def uniqueAux (seen : List ℕ) : List ℕ → List ℕ
  | [] => []
  | u :: rest => if u ∈ seen then uniqueAux seen rest else u :: uniqueAux (u :: seen) rest

/-- Pandas `df["user_id"].unique()` (page_1.py line 93): user ids in
order of first appearance. -/
def uniqueUsers (l : List ℕ) : List ℕ := uniqueAux [] l

/-- The full `df_aggregate_payments` table of `prepare_plots`
(page_1.py lines 93-101): one row per distinct user id, one `D{day}`
cell per configured horizon. -/
def aggregateTable (rows : List ProcRow) (days : List ℕ) : List (ℕ × List (Option ℚ)) :=
  (uniqueUsers (rows.map (fun r => r.user))).map
    (fun u => (u, days.map (fun d => aggCell rows u d)))

/-- The two ways `assign_factor` can fail at run time: falling through
every `max_value` branch leaves the local `factor` unbound
(`UnboundLocalError`), and comparing a `None` correlation against a
float raises a `TypeError`. -/
inductive AssignError where
  | unboundLocal
  | typeError
  deriving Repr, DecidableEq

namespace Page2

/-- Average rank (ties get the mean of their positions), the rank
transform underlying `corr(method="spearman")`. -/
def rankAvg (l : List ℚ) (v : ℚ) : ℚ :=
  (l.countP (fun x => decide (x < v)) : ℚ) +
    ((l.countP (fun x => decide (x = v)) : ℚ) + 1) / 2

/-- Rank every entry of a column. -/
def ranks (l : List ℚ) : List ℚ := l.map (rankAvg l)

/-- Pairwise-complete observations: pandas `corr` drops, per column
pair, the rows where either cell is `NaN`. -/
def pairComplete (xs ys : List (Option ℚ)) : List (ℚ × ℚ) :=
  (xs.zip ys).filterMap (fun p =>
    match p with
    | (some a, some b) => some (a, b)
    | _ => none)

/-- Pearson correlation coefficient of two equally long rational
columns, as an exact real (the denominator is a square root). -/
noncomputable def pearson (xs ys : List ℚ) : ℝ :=
  let n : ℚ := xs.length
  let sx := xs.sum
  let sy := ys.sum
  let sxy := ((xs.zip ys).map (fun p => p.1 * p.2)).sum
  let sxx := (xs.map (fun x => x * x)).sum
  let syy := (ys.map (fun y => y * y)).sum
  ((n * sxy - sx * sy : ℚ) : ℝ) /
    Real.sqrt (((n * sxx - sx * sx : ℚ) : ℝ) * ((n * syy - sy * sy : ℚ) : ℝ))

/-- Spearman correlation of two `Option`-valued columns: rank the
pairwise-complete observations, then Pearson. -/
noncomputable def spearman (xs ys : List (Option ℚ)) : ℝ :=
  let pc := pairComplete xs ys
  pearson (ranks (pc.map Prod.fst)) (ranks (pc.map Prod.snd))

/-- `compute_correlation` (page_2.py lines 6-9): the Spearman matrix of
the aggregate table's horizon columns, the `user_id` column dropped —
the input here is already the list of horizon columns. -/
noncomputable def compute_correlation (cols : List (List (Option ℚ))) : List (List ℝ) :=
  cols.map (fun c1 => cols.map (fun c2 => spearman c1 c2))

/-- `find_value_above_threshold` (page_2.py lines 11-16): scan the dict
in insertion order, return the first `(key, value)` with
`value > threshold` and `key != max_value` (the module global, here a
parameter), else `(None, None)`. -/
def find_value_above_threshold (max_value : ℕ) (dictionary : List (ℕ × ℚ))
    (threshold : ℚ) : Option ℕ × Option ℚ :=
  match dictionary with
  | [] => (none, none)
  | (key, value) :: rest =>
    if threshold < value ∧ key ≠ max_value then (some key, some value)
    else find_value_above_threshold max_value rest threshold

/-- The `relevant_values` dict (page_2.py lines 87-92): walk
`days_list[::-1]` and record each horizon's correlation with the
maximum horizon; `corr` abstracts the matrix lookup
`correlation[f"D{day}"][f"D{max_value}"]`. -/
def relevant_values (corr : ℕ → ℕ → ℚ) (days_list : List ℕ) : List (ℕ × ℚ) :=
  days_list.reverse.map (fun day => (day, corr day (maxHorizon days_list)))

/-- `assign_factor` (page_2.py lines 18-53), branch keys 62 / 93 / 186;
no fallback branch, so an unrecognised `max_value` leaves `factor`
unbound, and a `None` correlation fails on its first comparison. -/
def assign_factor (max_value : ℕ) (test_value : Option ℚ) : Except AssignError ℚ :=
  if max_value = 62 then
    match test_value with
    | none => .error .typeError
    | some t => .ok (if t < 4/10 then 10/100 else if t < 6/10 then 8/100
        else if t < 7/10 then 3/100 else if t < 8/10 then 1/100 else 0)
  else if max_value = 93 then
    match test_value with
    | none => .error .typeError
    | some t => .ok (if t < 4/10 then 12/100 else if t < 6/10 then 10/100
        else if t < 7/10 then 4/100 else if t < 8/10 then 1/100 else 0)
  else if max_value = 186 then
    match test_value with
    | none => .error .typeError
    | some t => .ok (if t < 4/10 then 14/100 else if t < 6/10 then 12/100
        else if t < 7/10 then 4/100 else if t < 8/10 then 1/100 else 0)
  else .error .unboundLocal

end Page2

namespace Page5

/-- Average rank with tie averaging, as in `Page2.rankAvg`. -/
def rankAvg (l : List ℚ) (v : ℚ) : ℚ :=
  (l.countP (fun x => decide (x < v)) : ℚ) +
    ((l.countP (fun x => decide (x = v)) : ℚ) + 1) / 2

/-- Rank every entry of a column. -/
def ranks (l : List ℚ) : List ℚ := l.map (rankAvg l)

/-- Pairwise-complete observations, as in `Page2.pairComplete`. -/
def pairComplete (xs ys : List (Option ℚ)) : List (ℚ × ℚ) :=
  (xs.zip ys).filterMap (fun p =>
    match p with
    | (some a, some b) => some (a, b)
    | _ => none)

/-- Pearson coefficient, as in `Page2.pearson`. -/
noncomputable def pearson (xs ys : List ℚ) : ℝ :=
  let n : ℚ := xs.length
  let sx := xs.sum
  let sy := ys.sum
  let sxy := ((xs.zip ys).map (fun p => p.1 * p.2)).sum
  let sxx := (xs.map (fun x => x * x)).sum
  let syy := (ys.map (fun y => y * y)).sum
  ((n * sxy - sx * sy : ℚ) : ℝ) /
    Real.sqrt (((n * sxx - sx * sx : ℚ) : ℝ) * ((n * syy - sy * sy : ℚ) : ℝ))

/-- Spearman correlation, as in `Page2.spearman`. -/
noncomputable def spearman (xs ys : List (Option ℚ)) : ℝ :=
  let pc := pairComplete xs ys
  pearson (ranks (pc.map Prod.fst)) (ranks (pc.map Prod.snd))

/-- `compute_correlation` (page_5.py lines 7-12), textually the same
computation as the page_2 copy. -/
noncomputable def compute_correlation (cols : List (List (Option ℚ))) : List (List ℝ) :=
  cols.map (fun c1 => cols.map (fun c2 => spearman c1 c2))

/-- `find_value_above_threshold` (page_5.py lines 15-20), textually the
same scan as the page_2 copy. -/
def find_value_above_threshold (max_value : ℕ) (dictionary : List (ℕ × ℚ))
    (threshold : ℚ) : Option ℕ × Option ℚ :=
  match dictionary with
  | [] => (none, none)
  | (key, value) :: rest =>
    if threshold < value ∧ key ≠ max_value then (some key, some value)
    else find_value_above_threshold max_value rest threshold

/-- The `relevant_values` dict (page_5.py lines 127-132). -/
def relevant_values (corr : ℕ → ℕ → ℚ) (days_list : List ℕ) : List (ℕ × ℚ) :=
  days_list.reverse.map (fun day => (day, corr day (maxHorizon days_list)))

/-- `assign_factor` (page_5.py lines 23-58), branch keys 60 / 90 / 180;
same failure modes as the page_2 copy. -/
def assign_factor (max_value : ℕ) (test_value : Option ℚ) : Except AssignError ℚ :=
  if max_value = 60 then
    match test_value with
    | none => .error .typeError
    | some t => .ok (if t < 4/10 then 10/100 else if t < 6/10 then 8/100
        else if t < 7/10 then 3/100 else if t < 8/10 then 1/100 else 0)
  else if max_value = 90 then
    match test_value with
    | none => .error .typeError
    | some t => .ok (if t < 4/10 then 12/100 else if t < 6/10 then 10/100
        else if t < 7/10 then 4/100 else if t < 8/10 then 1/100 else 0)
  else if max_value = 180 then
    match test_value with
    | none => .error .typeError
    | some t => .ok (if t < 4/10 then 14/100 else if t < 6/10 then 12/100
        else if t < 7/10 then 4/100 else if t < 8/10 then 1/100 else 0)
  else .error .unboundLocal

/-- `get_avg_spending_factor` (page_5.py lines 76-82). -/
def get_avg_spending_factor (avg_ad_spend_monthly : ℚ) : ℚ :=
  if 200000 < avg_ad_spend_monthly then 3/100
  else if 100000 < avg_ad_spend_monthly then 5/100
  else 0

/-- The projected-ROAS formula `churney_roas_min` (page_5.py line 141)
with the fixed `churney_baseline = 0.1` of line 139:
`regular_roas + regular_roas * (baseline + spending_factor + correlation_factor)`. -/
def churney_roas_min (regular_roas spending_factor correlation_factor : ℚ) : ℚ :=
  regular_roas + regular_roas * (1/10 + spending_factor + correlation_factor)

end Page5

/-! ### Concrete datasets used by the claims -/

/-- The activation-flag dataset of the anchor-correctness property:
`(u1, t = 0, activation = True, v = 5)` and
`(u1, t = 1h, activation = False, v = 3)`. -/
def anchorExample : List RawRow :=
  [⟨1, 0, 1, some 5⟩, ⟨1, 3600, 0, some 3⟩]

/-- Explicit-anchor dataset: one user, anchor at `t = 2h`, a single
5-unit event 48 hours after the anchor — inside the 3-day horizon but
outside the 1-day horizon. -/
def gapExample : List RawRow :=
  [⟨1, 7200 + 48 * 3600, 7200, some 5⟩]

/-- Explicit-anchor dataset: one user, anchor at `t = 2h`, a single
5-unit event 4800 hours (200 days) after the anchor — beyond the
largest configured horizon of 180 days. -/
def beyondExample : List RawRow :=
  [⟨1, 7200 + 4800 * 3600, 7200, some 5⟩]

/-- Activation-flag dataset: user 1 has a flagged row, user 2 has only
an unflagged row, hence no resolvable anchor. -/
def noAnchorExample : List RawRow :=
  [⟨1, 0, 1, some 10⟩, ⟨2, 0, 0, some 10⟩]

/-- Explicit-anchor dataset with divergent anchors for one user: user
1's two rows carry anchor values `7200` and `14400`. -/
def divergentExample : List RawRow :=
  [⟨1, 3600, 7200, some 1⟩, ⟨1, 7200, 14400, some 2⟩]

/-- The correlation matrix of the correlation-selection property:
`corr(D7, D60) = 0.9`, `corr(D3, D60) = 0.86`, `corr(D1, D60) = 0.5`,
self-correlation 1. -/
def exampleCorr (a b : ℕ) : ℚ :=
  if a = 7 ∧ b = 60 then 9/10
  else if a = 3 ∧ b = 60 then 86/100
  else if a = 1 ∧ b = 60 then 1/2
  else if a = b then 1
  else 0

/-! ### C2: uplift arithmetic -/

/-- C2: the Uplift Estimator's projected ROAS.  The page_5 factor table
gives `0.04` at `max_horizon = 90` and correlation `0.65`; the code's
`regular_roas + regular_roas * (0.1 + spend + corr)` equals the spec's
`regular_roas * (1 + 0.1 + spend + corr)`; a monthly spend below 100k
(here 50000) has spending factor 0, so `regular_roas = 0.5` projects to
`0.5 * 1.14 = 0.57`. -/
theorem uplift_table_exactness (r s c : ℚ) :
    Page5.assign_factor 90 (some (65/100)) = Except.ok (4/100) ∧
    Page5.churney_roas_min r s c = r * (1 + 1/10 + s + c) ∧
    Page5.get_avg_spending_factor 50000 = 0 ∧
    Page5.churney_roas_min (1/2) (Page5.get_avg_spending_factor 50000) (4/100) = 57/100 := by
  refine ⟨?_, ?_, ?_, ?_⟩
  · norm_num [Page5.assign_factor]
  · unfold Page5.churney_roas_min; ring
  · norm_num [Page5.get_avg_spending_factor]
  · norm_num [Page5.churney_roas_min, Page5.get_avg_spending_factor]

/-! ### C5: anchor correctness on the flag convention -/

/-- C5: on the activation-flag dataset
`[(u1, t=0, activation=True, v=5), (u1, t=1h, activation=False, v=3)]`
the anchor of user 1 is `t = 0`, the preprocessed offsets are 0 and 1
hours, and the 1-day aggregate `D1` is `5 + 3 = 8`. -/
theorem anchor_correctness :
    firstTouchpoint anchorExample 1 = some 0 ∧
    preprocessData anchorExample = [⟨1, some 0, 5⟩, ⟨1, some 1, 3⟩] ∧
    aggCell (preprocessData anchorExample) 1 1 = some 8 := by
  refine ⟨?_, ?_, ?_⟩
  · norm_num [firstTouchpoint, anchorExample, List.min?]
  · norm_num [preprocessData, isFlagConvention, firstTouchpoint, anchorExample, List.min?]
  · norm_num [aggCell, preprocessData, isFlagConvention, firstTouchpoint, anchorExample,
      qualifies, List.min?]

/-! ### C1: the correlation-selection scan -/

/-- A successful scan returns a pair that is in the dict, beats the
threshold and is not the maximum key. -/
lemma fvat_eq_some {m : ℕ} {θ : ℚ} :
    ∀ {l : List (ℕ × ℚ)} {k : ℕ} {v : ℚ},
      Page2.find_value_above_threshold m l θ = (some k, some v) →
      (k, v) ∈ l ∧ θ < v ∧ k ≠ m := by
  intro l
  induction l with
  | nil => intro k v h; simp [Page2.find_value_above_threshold] at h
  | cons p rest ih =>
    intro k v h
    obtain ⟨key, value⟩ := p
    rw [Page2.find_value_above_threshold] at h
    by_cases hc : θ < value ∧ key ≠ m
    · rw [if_pos hc] at h
      obtain ⟨h1, h2⟩ := Prod.mk.injEq .. ▸ h
      cases h1; cases h2
      exact ⟨List.mem_cons_self .., by simpa using hc.1, hc.2⟩
    · rw [if_neg hc] at h
      obtain ⟨hm, hv, hk⟩ := ih h
      exact ⟨List.mem_cons_of_mem _ hm, hv, hk⟩

/-- If no non-maximum entry beats the threshold, the scan returns
`(None, None)`. -/
lemma fvat_eq_none {m : ℕ} {θ : ℚ} :
    ∀ {l : List (ℕ × ℚ)}, (∀ p ∈ l, p.1 ≠ m → p.2 ≤ θ) →
      Page2.find_value_above_threshold m l θ = (none, none) := by
  intro l
  induction l with
  | nil => intro _; rfl
  | cons p rest ih =>
    intro hall
    obtain ⟨key, value⟩ := p
    rw [Page2.find_value_above_threshold, if_neg, ih]
    · intro q hq hne
      exact hall q (List.mem_cons_of_mem _ hq) hne
    · rintro ⟨hv, hk⟩
      exact absurd (hall (key, value) (List.mem_cons_self ..) hk) (not_le.mpr hv)

/-- On a dict whose keys strictly decrease, the scan's winner is the
largest qualifying key. -/
lemma fvat_desc_max {m : ℕ} {θ : ℚ} :
    ∀ {l : List (ℕ × ℚ)}, l.Pairwise (fun p q => q.1 < p.1) →
      ∀ {k : ℕ} {v : ℚ}, Page2.find_value_above_threshold m l θ = (some k, some v) →
      ∀ p ∈ l, θ < p.2 → p.1 ≠ m → p.1 ≤ k := by
  intro l
  induction l with
  | nil => intro _ k v h; simp [Page2.find_value_above_threshold] at h
  | cons q rest ih =>
    intro hpw k v h p hp hpθ hpm
    obtain ⟨key, value⟩ := q
    obtain ⟨hhead, htail⟩ := List.pairwise_cons.mp hpw
    rw [Page2.find_value_above_threshold] at h
    by_cases hc : θ < value ∧ key ≠ m
    · rw [if_pos hc] at h
      obtain ⟨h1, _⟩ := Prod.mk.injEq .. ▸ h
      cases h1
      rcases List.mem_cons.mp hp with rfl | hmem
      · exact le_refl _
      · exact le_of_lt (hhead p hmem)
    · rw [if_neg hc] at h
      rcases List.mem_cons.mp hp with rfl | hmem
      · exact absurd ⟨hpθ, hpm⟩ hc
      · exact ih htail h p hmem hpθ hpm

/-- Membership in the `relevant_values` dict. -/
lemma mem_relevant_values {c : ℕ → ℕ → ℚ} {days : List ℕ} {p : ℕ × ℚ} :
    p ∈ Page2.relevant_values c days ↔
      p.1 ∈ days ∧ p.2 = c p.1 (maxHorizon days) := by
  obtain ⟨k, v⟩ := p
  simp only [Page2.relevant_values, List.mem_map, List.mem_reverse]
  constructor
  · rintro ⟨d, hd, h⟩
    obtain ⟨h1, h2⟩ := Prod.mk.injEq .. ▸ h
    cases h1; exact ⟨hd, h2.symm⟩
  · rintro ⟨hd, hv⟩
    exact ⟨k, hd, by rw [hv]⟩

/-- On a strictly ascending horizon list the `relevant_values` dict has
strictly descending keys. -/
lemma relevant_values_pairwise {c : ℕ → ℕ → ℚ} {days : List ℕ}
    (hs : days.Sorted (· < ·)) :
    (Page2.relevant_values c days).Pairwise (fun p q => q.1 < p.1) := by
  rw [Page2.relevant_values, List.pairwise_map, List.pairwise_reverse]
  exact hs

/-- C1: the correlation selection scans the reversed horizon list.  A
returned pair `(k, v)` satisfies `v = corr(Dk, Dmax) > θ`, `k ≠ max`,
and `k` is the longest non-max horizon above the threshold; if no
non-max horizon clears the threshold the scan returns `(None, None)`;
and on horizons `[1, 3, 7, 60]` with `corr(D7, D60) = 0.9`,
`corr(D3, D60) = 0.86`, `corr(D1, D60) = 0.5` the result is
`(7, 0.9)`. -/
theorem correlation_selection (days : List ℕ) (c : ℕ → ℕ → ℚ) (θ : ℚ)
    (hs : days.Sorted (· < ·)) :
    (∀ k v, Page2.find_value_above_threshold (maxHorizon days)
        (Page2.relevant_values c days) θ = (some k, some v) →
      k ∈ days ∧ k ≠ maxHorizon days ∧ θ < v ∧ v = c k (maxHorizon days) ∧
        ∀ d ∈ days, d ≠ maxHorizon days → θ < c d (maxHorizon days) → d ≤ k) ∧
    ((∀ d ∈ days, d ≠ maxHorizon days → c d (maxHorizon days) ≤ θ) →
      Page2.find_value_above_threshold (maxHorizon days)
        (Page2.relevant_values c days) θ = (none, none)) ∧
    Page2.find_value_above_threshold (maxHorizon [1, 3, 7, 60])
      (Page2.relevant_values exampleCorr [1, 3, 7, 60]) (85/100) =
      (some 7, some (9/10)) := by
  refine ⟨?_, ?_, ?_⟩
  · intro k v h
    obtain ⟨hmem, hθ, hne⟩ := fvat_eq_some h
    obtain ⟨hk, hv⟩ := mem_relevant_values.mp hmem
    refine ⟨hk, hne, hθ, hv, ?_⟩
    intro d hd hdm hdθ
    exact fvat_desc_max (relevant_values_pairwise hs) h (d, c d (maxHorizon days))
      (mem_relevant_values.mpr ⟨hd, rfl⟩) hdθ hdm
  · intro hall
    refine fvat_eq_none ?_
    intro p hp hpm
    obtain ⟨hd, hv⟩ := mem_relevant_values.mp hp
    exact hv ▸ hall p.1 hd hpm
  · norm_num [Page2.find_value_above_threshold, Page2.relevant_values, exampleCorr,
      maxHorizon]

/-- Witness for `correlation_selection` at the horizon list
`[1, 3, 7, 60]` of the claim's example. -/
theorem correlation_selection_witness :
    ([1, 3, 7, 60] : List ℕ).Sorted (· < ·) ∧
    Page2.find_value_above_threshold (maxHorizon [1, 3, 7, 60])
      (Page2.relevant_values exampleCorr [1, 3, 7, 60]) (85/100) =
      (some 7, some (9/10)) :=
  ⟨by decide, (correlation_selection [1, 3, 7, 60] exampleCorr (85/100) (by decide)).2.2⟩

/-! ### C3: monotonicity of the horizon columns -/

/-- Widening the time window can only keep a row qualifying. -/
lemma qualifies_mono {h1 h2 : ℕ} (hle : h1 ≤ h2) (r : ProcRow) :
    qualifies h1 r = true → qualifies h2 r = true := by
  cases hh : r.hours with
  | none => simp [qualifies, hh]
  | some h =>
    simp only [qualifies, hh, decide_eq_true_eq]
    intro hq
    have hc : (24 : ℚ) * h1 ≤ 24 * h2 := by
      have : (h1 : ℚ) ≤ h2 := Nat.cast_le.mpr hle
      linarith
    linarith

/-- Summing the values of a filtered list grows with the filter when
every value is non-negative. -/
lemma filter_sum_le {p q : ProcRow → Bool} (himp : ∀ r, p r = true → q r = true) :
    ∀ {l : List ProcRow}, (∀ r ∈ l, 0 ≤ r.value) →
      ((l.filter p).map (fun r => r.value)).sum ≤
        ((l.filter q).map (fun r => r.value)).sum := by
  intro l
  induction l with
  | nil => intro _; simp
  | cons r t ih =>
    intro hval
    have hvr : 0 ≤ r.value := hval r (List.mem_cons_self ..)
    have hvt : ∀ x ∈ t, 0 ≤ x.value := fun x hx => hval x (List.mem_cons_of_mem _ hx)
    cases hp : p r with
    | true =>
      have hq := himp r hp
      simp only [List.filter_cons, hp, hq, if_pos, List.map_cons, List.sum_cons]
      exact add_le_add_left (ih hvt) _
    | false =>
      cases hq : q r with
      | true =>
        simp only [List.filter_cons, hp, hq, if_pos, Bool.false_eq_true, if_false,
          List.map_cons, List.sum_cons]
        exact le_add_of_nonneg_of_le hvr (ih hvt)
      | false =>
        simp only [List.filter_cons, hp, hq, Bool.false_eq_true, if_false]
        exact ih hvt

/-- A filter implied by a non-vacuous filter is non-vacuous. -/
lemma filter_ne_nil_mono {p q : ProcRow → Bool} (himp : ∀ r, p r = true → q r = true)
    {l : List ProcRow} (h : l.filter p ≠ []) : l.filter q ≠ [] := by
  intro hq
  apply h
  rw [List.filter_eq_nil_iff] at hq ⊢
  exact fun a ha hp => hq a ha (himp a hp)

/-- The two nested filters of `aggCell` as one filter. -/
lemma aggCell_eq_single_filter (rows : List ProcRow) (u d : ℕ) :
    aggCell rows u d =
      (if (rows.filter (fun r => (r.user == u) && qualifies d r)).isEmpty then none
       else some (((rows.filter (fun r => (r.user == u) && qualifies d r)).map
         (fun r => r.value)).sum)) := by
  unfold aggCell
  dsimp only
  rw [List.filter_filter]

/-- C3 (amended): for horizons `h1 ≤ h2` and non-negative values, a
defined cell `D{h1} = a` forces `D{h2}` to be defined with `a ≤ D{h2}`.
The original claim's unconditional `D{h1} ≤ D{h2}` fails when the user
has no qualifying row within `h1` (then `D{h1}` is `NaN`, see
`monotonicity_counterexample`). -/
theorem horizon_monotone (rows : List ProcRow) (u h1 h2 : ℕ) (hle : h1 ≤ h2)
    (hval : ∀ r ∈ rows, 0 ≤ r.value) (a : ℚ) (ha : aggCell rows u h1 = some a) :
    ∃ b, aggCell rows u h2 = some b ∧ a ≤ b := by
  rw [aggCell_eq_single_filter] at ha
  rw [aggCell_eq_single_filter]
  have himp : ∀ r : ProcRow, ((r.user == u) && qualifies h1 r) = true →
      ((r.user == u) && qualifies h2 r) = true := by
    intro r hr
    rw [Bool.and_eq_true] at hr ⊢
    exact ⟨hr.1, qualifies_mono hle r hr.2⟩
  by_cases hemp : (rows.filter (fun r => (r.user == u) && qualifies h1 r)).isEmpty
  · rw [if_pos hemp] at ha
    exact absurd ha (by simp)
  · rw [if_neg hemp] at ha
    have h1ne : rows.filter (fun r => (r.user == u) && qualifies h1 r) ≠ [] := by
      intro hh
      exact hemp (by simp [hh])
    have h2ne := filter_ne_nil_mono himp h1ne
    have hemp2 : ¬ (rows.filter (fun r => (r.user == u) && qualifies h2 r)).isEmpty := by
      simpa [List.isEmpty_iff] using h2ne
    rw [if_neg hemp2]
    refine ⟨_, rfl, ?_⟩
    obtain rfl := Option.some.inj ha
    exact filter_sum_le himp hval

/-- Witness for `horizon_monotone` on the anchor-correctness dataset:
`D1 = 8` and some `b` with `D3 = b ≥ 8`. -/
theorem horizon_monotone_witness :
    (1 ≤ 3 ∧ (∀ r ∈ preprocessData anchorExample, (0 : ℚ) ≤ r.value) ∧
      aggCell (preprocessData anchorExample) 1 1 = some 8) ∧
    ∃ b, aggCell (preprocessData anchorExample) 1 3 = some b ∧ (8 : ℚ) ≤ b := by
  have hval : ∀ r ∈ preprocessData anchorExample, (0 : ℚ) ≤ r.value := by
    norm_num [preprocessData, isFlagConvention, firstTouchpoint, anchorExample, List.min?]
  have ha : aggCell (preprocessData anchorExample) 1 1 = some 8 := by
    norm_num [aggCell, preprocessData, isFlagConvention, firstTouchpoint, anchorExample,
      qualifies, List.min?]
  exact ⟨⟨by norm_num, hval, ha⟩,
    horizon_monotone (preprocessData anchorExample) 1 1 3 (by norm_num) hval 8 ha⟩

/-- C3 counterexample: a pipeline input (explicit anchor, a single
5-unit event 48 hours after the anchor) on which `D1` is missing
(pandas `NaN`, the left merge found no qualifying row) while
`D3 = 5`.  The claimed numeric comparison `D1 ≤ D3` therefore does not
hold on this row of the aggregate table: `NaN` compares false. -/
theorem monotonicity_counterexample :
    aggCell (preprocessData gapExample) 1 1 = none ∧
    aggCell (preprocessData gapExample) 1 3 = some 5 := by
  constructor <;>
    norm_num [aggCell, preprocessData, isFlagConvention, gapExample, qualifies]

/-! ### C4 and C6: presence in the aggregate table, missing cells -/

/-- Membership in the first-occurrence deduplication. -/
lemma mem_uniqueAux : ∀ (l seen : List ℕ) (u : ℕ),
    u ∈ uniqueAux seen l ↔ u ∈ l ∧ u ∉ seen := by
  intro l
  induction l with
  | nil => intro seen u; simp [uniqueAux]
  | cons v rest ih =>
    intro seen u
    by_cases hv : v ∈ seen
    · rw [uniqueAux, if_pos hv, ih]
      constructor
      · rintro ⟨h1, h2⟩
        exact ⟨List.mem_cons_of_mem _ h1, h2⟩
      · rintro ⟨h1, h2⟩
        rcases List.mem_cons.mp h1 with rfl | h1
        · exact absurd hv h2
        · exact ⟨h1, h2⟩
    · rw [uniqueAux, if_neg hv]
      constructor
      · intro h
        rcases List.mem_cons.mp h with rfl | h
        · exact ⟨List.mem_cons_self .., hv⟩
        · obtain ⟨h1, h2⟩ := (ih _ u).mp h
          refine ⟨List.mem_cons_of_mem _ h1, fun hs => h2 (List.mem_cons_of_mem _ hs)⟩
      · rintro ⟨h1, h2⟩
        by_cases huv : u = v
        · exact huv ▸ List.mem_cons_self ..
        · rcases List.mem_cons.mp h1 with rfl | h1
          · exact absurd rfl huv
          · refine List.mem_cons_of_mem _ ((ih _ u).mpr ⟨h1, ?_⟩)
            intro hc
            rcases List.mem_cons.mp hc with rfl | hc
            · exact huv rfl
            · exact h2 hc

/-- Pandas `unique` keeps exactly the ids occurring in the column. -/
lemma mem_uniqueUsers {l : List ℕ} {u : ℕ} : u ∈ uniqueUsers l ↔ u ∈ l := by
  simp [uniqueUsers, mem_uniqueAux]

/-- Preprocessing never changes the user column. -/
lemma preprocess_map_user (df : List RawRow) :
    (preprocessData df).map (fun r => r.user) = df.map (fun r => r.user) := by
  unfold preprocessData
  by_cases h : isFlagConvention df <;> simp [h, List.map_map, Function.comp]

/-- Every user occurring in the anchored rows owns a row of the
aggregate table. -/
lemma mem_aggregate_users {rows : List ProcRow} {u : ℕ}
    (h : u ∈ rows.map (fun r => r.user)) (days : List ℕ) :
    u ∈ (aggregateTable rows days).map Prod.fst := by
  unfold aggregateTable
  rw [List.map_map]
  simpa [Function.comp] using mem_uniqueUsers.mpr h

/-- A user none of whose rows qualifies for a horizon gets a missing
cell, not a zero. -/
lemma aggCell_eq_none {rows : List ProcRow} {u d : ℕ}
    (h : ∀ r ∈ rows, r.user = u → qualifies d r = false) :
    aggCell rows u d = none := by
  rw [aggCell_eq_single_filter, if_pos]
  rw [List.isEmpty_iff, List.filter_eq_nil_iff]
  intro r hr
  rw [Bool.and_eq_true, not_and]
  intro hu
  rw [h r hr (by simpa using hu)]
  simp

/-- C4 (amended): a user with a row in the input is never dropped from
the aggregate table, and a user with no qualifying rows for a horizon
gets a missing (`NaN`) cell for that column — not a zero, contrary to
the original claim (see `zero_fill_counterexample`). -/
theorem zero_fill_amended (df : List RawRow) (u : ℕ) (hu : ∃ r ∈ df, r.user = u) :
    u ∈ (aggregateTable (preprocessData df) daysList).map Prod.fst ∧
    ∀ d : ℕ, (∀ r ∈ preprocessData df, r.user = u → qualifies d r = false) →
      aggCell (preprocessData df) u d = none := by
  constructor
  · refine mem_aggregate_users ?_ daysList
    rw [preprocess_map_user]
    obtain ⟨r, hr, hru⟩ := hu
    exact List.mem_map.mpr ⟨r, hr, hru⟩
  · intro d hd
    exact aggCell_eq_none hd

/-- Witness for `zero_fill_amended` on the beyond-horizon dataset. -/
theorem zero_fill_amended_witness :
    (∃ r ∈ beyondExample, r.user = 1) ∧
    (1 ∈ (aggregateTable (preprocessData beyondExample) daysList).map Prod.fst ∧
      ∀ d : ℕ, (∀ r ∈ preprocessData beyondExample, r.user = 1 → qualifies d r = false) →
        aggCell (preprocessData beyondExample) 1 d = none) := by
  have hu : ∃ r ∈ beyondExample, r.user = 1 := ⟨⟨1, 7200 + 4800 * 3600, 7200, some 5⟩,
    List.mem_cons_self .., rfl⟩
  exact ⟨hu, zero_fill_amended beyondExample 1 hu⟩

/-- C4 counterexample: a user whose only event lies 200 days past the
anchor — beyond the largest configured horizon — is still a row of the
aggregate table, but every horizon cell of that row is missing
(`none`, pandas `NaN` from the left merge), not `0` as claimed. -/
theorem zero_fill_counterexample :
    aggregateTable (preprocessData beyondExample) daysList =
      [(1, [none, none, none, none, none, none, none, none])] := by
  norm_num [aggregateTable, uniqueUsers, uniqueAux, aggCell, preprocessData,
    isFlagConvention, beyondExample, qualifies, daysList]

/-- C6 (amended): under the activation-flag convention a user some of
whose rows are in the input but none of which is activation-flagged is
NOT excluded from the aggregate table: the user keeps a row whose every
horizon cell is missing (`NaN`), and no exclusion count exists anywhere
in the pipeline's outputs.  The pipeline does not fail: `preprocessData`
and `aggregateTable` are total. -/
theorem anchor_exclusion_amended (df : List RawRow) (u : ℕ)
    (hflag : isFlagConvention df = true)
    (hu : ∃ r ∈ df, r.user = u)
    (hnoflag : ∀ r ∈ df, r.user = u → ¬(r.act = 1)) :
    u ∈ (aggregateTable (preprocessData df) daysList).map Prod.fst ∧
    ∀ d ∈ daysList, aggCell (preprocessData df) u d = none := by
  have hft : firstTouchpoint df u = none := by
    unfold firstTouchpoint
    have : df.filter (fun r => r.act == 1 && r.user == u) = [] := by
      rw [List.filter_eq_nil_iff]
      intro r hr
      rw [Bool.and_eq_true, not_and]
      intro ha hru
      exact hnoflag r hr (by simpa using hru) (by simpa using ha)
    rw [this]
    rfl
  constructor
  · refine mem_aggregate_users ?_ daysList
    rw [preprocess_map_user]
    obtain ⟨r, hr, hru⟩ := hu
    exact List.mem_map.mpr ⟨r, hr, hru⟩
  · intro d _
    refine aggCell_eq_none ?_
    intro r hr hru
    unfold preprocessData at hr
    rw [if_pos hflag] at hr
    obtain ⟨s, hs, rfl⟩ := List.mem_map.mp hr
    dsimp only at hru ⊢
    rw [hru, hft]
    rfl

/-- Witness for `anchor_exclusion_amended` on the dataset where user 2
has no activation-flagged row. -/
theorem anchor_exclusion_amended_witness :
    (isFlagConvention noAnchorExample = true ∧
      (∃ r ∈ noAnchorExample, r.user = 2) ∧
      (∀ r ∈ noAnchorExample, r.user = 2 → ¬(r.act = 1))) ∧
    (2 ∈ (aggregateTable (preprocessData noAnchorExample) daysList).map Prod.fst ∧
      ∀ d ∈ daysList, aggCell (preprocessData noAnchorExample) 2 d = none) := by
  have h1 : isFlagConvention noAnchorExample = true := by norm_num [isFlagConvention,
    noAnchorExample]
  have h2 : ∃ r ∈ noAnchorExample, r.user = 2 := ⟨⟨2, 0, 0, some 10⟩,
    List.mem_cons_of_mem _ (List.mem_cons_self ..), rfl⟩
  have h3 : ∀ r ∈ noAnchorExample, r.user = 2 → ¬(r.act = 1) := by
    intro r hr
    rcases List.mem_cons.mp hr with rfl | hr
    · intro hru; norm_num at hru
    · rcases List.mem_cons.mp hr with rfl | hr
      · intro _; norm_num
      · exact absurd hr (List.not_mem_nil _)
  exact ⟨⟨h1, h2, h3⟩, anchor_exclusion_amended noAnchorExample 2 h1 h2 h3⟩

/-- C6 counterexample: on a dataset where user 2 has only unflagged
rows, the aggregate table still contains a row for user 2 (with every
cell missing) — the user is not absent as claimed, and the code reports
no exclusion count. -/
theorem anchor_exclusion_counterexample :
    aggregateTable (preprocessData noAnchorExample) daysList =
      [(1, [some 10, some 10, some 10, some 10, some 10, some 10, some 10, some 10]),
       (2, [none, none, none, none, none, none, none, none])] := by
  norm_num [aggregateTable, uniqueUsers, uniqueAux, aggCell, preprocessData,
    isFlagConvention, firstTouchpoint, noAnchorExample, qualifies, daysList, List.min?]

/-! ### C7: unsupported maximum horizon -/

/-- C7: when the maximum horizon matches none of the three branch keys,
`assign_factor` produces no factor — it falls through every branch and
fails (the local `factor` stays unbound; no interpolation, no silent
fallback).  The page_2 table is keyed on 62 / 93 / 186 while the
configured horizon list tops out at 180, so the page_2 copy always
fails on the configured horizons; the page_5 table is keyed on
60 / 90 / 180. -/
theorem unsupported_horizon (m : ℕ) (t : Option ℚ) :
    (m ∉ ([62, 93, 186] : List ℕ) →
      Page2.assign_factor m t = Except.error AssignError.unboundLocal) ∧
    (m ∉ ([60, 90, 180] : List ℕ) →
      Page5.assign_factor m t = Except.error AssignError.unboundLocal) ∧
    maxHorizon daysList = 180 ∧
    Page2.assign_factor (maxHorizon daysList) t = Except.error AssignError.unboundLocal := by
  refine ⟨?_, ?_, by decide, rfl⟩
  · intro hm
    simp only [List.mem_cons, List.not_mem_nil, or_false, not_or] at hm
    simp [Page2.assign_factor, hm.1, hm.2.1, hm.2.2]
  · intro hm
    simp only [List.mem_cons, List.not_mem_nil, or_false, not_or] at hm
    simp [Page5.assign_factor, hm.1, hm.2.1, hm.2.2]

/-- Witness for `unsupported_horizon` at the unrecognised maximum
horizon 100. -/
theorem unsupported_horizon_witness :
    (100 ∉ ([62, 93, 186] : List ℕ) ∧ 100 ∉ ([60, 90, 180] : List ℕ)) ∧
    Page2.assign_factor 100 (some (1/2)) = Except.error AssignError.unboundLocal ∧
    Page5.assign_factor 100 (some (1/2)) = Except.error AssignError.unboundLocal :=
  ⟨⟨by decide, by decide⟩,
    (unsupported_horizon 100 (some (1/2))).1 (by decide),
    ((unsupported_horizon 100 (some (1/2))).2).1 (by decide)⟩

/-! ### C8: divergent explicit anchors are not rejected -/

/-- C8 (amended): on the explicit-anchor convention `preprocess_data`
performs no per-user consistency check: it keeps every row (length is
preserved) and computes each row's offset from that row's own anchor
value, silently accepting divergent anchors. -/
theorem inconsistent_anchor_amended (df : List RawRow) (r : RawRow)
    (hexp : isFlagConvention df = false) (hr : r ∈ df) :
    (preprocessData df).length = df.length ∧
    ProcRow.mk r.user (some ((r.t - r.act) / 3600)) (r.value.getD 0) ∈ preprocessData df := by
  constructor
  · unfold preprocessData
    by_cases h : isFlagConvention df <;> simp [h]
  · unfold preprocessData
    rw [if_neg (by simp [hexp])]
    exact List.mem_map.mpr ⟨r, hr, rfl⟩

/-- Witness for `inconsistent_anchor_amended` at the first row of the
divergent-anchor dataset. -/
theorem inconsistent_anchor_amended_witness :
    (isFlagConvention divergentExample = false ∧
      RawRow.mk 1 3600 7200 (some 1) ∈ divergentExample) ∧
    ((preprocessData divergentExample).length = divergentExample.length ∧
      ProcRow.mk 1 (some (((3600 : ℚ) - 7200) / 3600)) ((some (1 : ℚ)).getD 0) ∈
        preprocessData divergentExample) := by
  have h1 : isFlagConvention divergentExample = false := by
    norm_num [isFlagConvention, divergentExample]
  have h2 : RawRow.mk 1 3600 7200 (some 1) ∈ divergentExample := List.mem_cons_self ..
  exact ⟨⟨h1, h2⟩, inconsistent_anchor_amended divergentExample (RawRow.mk 1 3600 7200 (some 1)) h1 h2⟩

/-- C8 counterexample: user 1's two rows carry the divergent anchor
values 7200 and 14400.  Preprocessing succeeds normally — no
`InconsistentAnchor` failure, no rejection — and resolves each row
against its own anchor, producing the distinct offsets `-1` h and
`-2` h for the same user. -/
theorem inconsistent_anchor_counterexample :
    preprocessData divergentExample =
      [⟨1, some (-1), 1⟩, ⟨1, some (-2), 2⟩] := by
  norm_num [preprocessData, isFlagConvention, divergentExample]

/-! ### C9: the duplicated page_2 / page_5 logic agrees -/

/-- The two copies of `find_value_above_threshold` agree on every
dict, threshold and maximum key. -/
lemma find_agree (m : ℕ) (d : List (ℕ × ℚ)) (θ : ℚ) :
    Page2.find_value_above_threshold m d θ = Page5.find_value_above_threshold m d θ := by
  induction d with
  | nil => rfl
  | cons p rest ih =>
    obtain ⟨k, v⟩ := p
    rw [Page2.find_value_above_threshold, Page5.find_value_above_threshold, ih]

/-- C9: the duplicated correlation logic of page_2 and page_5 is
extensionally equal: both `compute_correlation` copies produce the same
Spearman matrix on every column list, and both
`find_value_above_threshold` copies return the same pair on the same
ordered map, threshold and maximum horizon. -/
theorem duplicated_logic_equal :
    (∀ cols : List (List (Option ℚ)),
      Page2.compute_correlation cols = Page5.compute_correlation cols) ∧
    (∀ (m : ℕ) (d : List (ℕ × ℚ)) (θ : ℚ),
      Page2.find_value_above_threshold m d θ = Page5.find_value_above_threshold m d θ) :=
  ⟨fun _ => rfl, find_agree⟩

/-! ### C10: the no-qualifying-horizon branch is unguarded -/

/-- C10: when no horizon's correlation with the maximum horizon
strictly exceeds 0.85, `find_value_above_threshold` returns
`(None, None)`, and the page_5 call `assign_factor(max_value, None)`
that follows fails on the comparison `None < 0.4` (an unhandled
`TypeError`, modelled `AssignError.typeError`) — so this branch never
yields an uplift estimate or a typed error. -/
theorem none_case_unguarded (c : ℕ → ℕ → ℚ)
    (hall : ∀ d ∈ daysList, d ≠ maxHorizon daysList →
      c d (maxHorizon daysList) ≤ 85/100) :
    Page5.find_value_above_threshold (maxHorizon daysList)
      (Page5.relevant_values c daysList) (85/100) = (none, none) ∧
    Page5.assign_factor (maxHorizon daysList) none = Except.error AssignError.typeError := by
  constructor
  · show Page2.find_value_above_threshold (maxHorizon daysList)
      (Page2.relevant_values c daysList) (85/100) = (none, none)
    refine fvat_eq_none ?_
    intro p hp hpm
    obtain ⟨hd, hv⟩ := mem_relevant_values.mp hp
    exact hv ▸ hall p.1 hd hpm
  · rfl

/-- Witness for `none_case_unguarded` with every correlation 0.5. -/
theorem none_case_unguarded_witness :
    (∀ d ∈ daysList, d ≠ maxHorizon daysList →
      (fun _ _ => (1 : ℚ)/2) d (maxHorizon daysList) ≤ 85/100) ∧
    (Page5.find_value_above_threshold (maxHorizon daysList)
      (Page5.relevant_values (fun _ _ => (1 : ℚ)/2) daysList) (85/100) = (none, none) ∧
    Page5.assign_factor (maxHorizon daysList) none = Except.error AssignError.typeError) := by
  have h : ∀ d ∈ daysList, d ≠ maxHorizon daysList →
      (fun _ _ => (1 : ℚ)/2) d (maxHorizon daysList) ≤ 85/100 := by
    intro d _ _
    norm_num
  exact ⟨h, none_case_unguarded (fun _ _ => (1 : ℚ)/2) h⟩

end RevenuePatterns
